import Mathlib

/-!
Verification development for the gittuf policy mutation slice
(internal/repository: InitializeTargets, AddDelegation, UpdateDelegation,
RemoveDelegation, AddKeyToTargets, SignTargets).

The six repository-level operations are embedded directly from
src/internal/gitinterface/repository.go.  The collaborators they call
(the policy package: state loading, metadata model; the dsse package:
envelopes and signing) are not part of the source slice and are modelled
from the specification, as marked in their doc comments.

In the Go source, several error branches execute a literal statement
returning the nil error value instead of the error that was just checked
(for example after resolving the signer key id).  Such a branch makes the
operation report success while committing nothing.  The embedding keeps
these branches faithfully as the distinct outcome constructor
`Outcome.returnedNil`, so theorems can distinguish "returned an error",
"returned success without committing" and "invoked state.Commit".
-/

/-- A public key as the engine sees it: an opaque tuple compared by key id.
Modelled from the spec: Key is (key_id, key_type, scheme, public_material). -/
structure Key where
  keyID : String
  keyType : String
  scheme : String
  public : String
deriving DecidableEq, Repr

/-- A delegation (rule) inside a targets metadata document.
Modelled from the spec: rule_name, authorized_keys, patterns, threshold. -/
structure Delegation where
  name : String
  keys : List Key
  patterns : List String
  threshold : Int
deriving DecidableEq, Repr

/-- A targets (rule file) metadata document.
Modelled from the spec: a version counter, the role's own authorized
signer key set, and an ordered sequence of delegations. -/
structure TargetsMetadata where
  version : Nat
  keys : List Key
  delegations : List Delegation
deriving DecidableEq, Repr

/-- An authenticated envelope: a payload with an ordered signature list.
Modelled from the spec: Envelope{payload, signatures[]} where each
signature is a (key_id, signature_bytes) pair.  The payload is the
(deterministically serialized) targets metadata document; the embedding
keeps it as the metadata value itself. -/
structure Envelope where
  payload : TargetsMetadata
  signatures : List (String × String)
deriving DecidableEq, Repr

/-- The transactional snapshot of the policy metadata set.
Modelled from the spec: root envelope, top-level targets envelope, and a
mapping role-name to envelope for delegated roles.  The root envelope is
opaque to this slice (never read or written by the six operations). -/
structure PolicyState where
  RootEnvelope : Option String
  TargetsEnvelope : Option Envelope
  DelegationEnvelopes : List (String × Envelope)
deriving DecidableEq, Repr

/-- The error taxonomy of the slice (repository and policy package errors,
plus a constructor for wrapped I/O or cryptographic failures). -/
inductive PolicyError where
  | invalidPolicyName
  | cannotReinitialize
  | duplicatedRuleName
  | metadataNotFound
  | ruleNotFound
  | invalidThreshold
  | unauthorizedKey
  | ioError (msg : String)
deriving DecidableEq, Repr

/-- The caller's signing identity.  Resolving the key id and producing a
signature over a payload are both fallible, as in the external
SignerVerifier interface. -/
structure Signer where
  keyIDResult : Except PolicyError String
  sign : TargetsMetadata → Except PolicyError String

/-- The externally visible result of one repository-level operation:
either an error was returned, or the nil error value was returned without
committing (the buggy branches in the source), or state.Commit was
invoked on a final state with a commit message. -/
inductive Outcome where
  | errored (e : PolicyError)
  | returnedNil
  | committed (state : PolicyState) (message : String)
deriving DecidableEq, Repr

/-- The single-quote character as a string (used by the commit message
templates). -/
def q : String := String.singleton (Char.ofNat 39)

/-- Lookup in an association list of role-name/envelope pairs (the
embedding of the Go map read). -/
def lookupEnv : List (String × Envelope) → String → Option Envelope
  | [], _ => none
  | (k, v) :: rest, name => if k == name then some v else lookupEnv rest name

/-- Update of an association list of role-name/envelope pairs: replace the
binding if the key is present, otherwise append it (the embedding of the
Go map write). -/
def insertEnv : List (String × Envelope) → String → Envelope → List (String × Envelope)
  | [], name, env => [(name, env)]
  | (k, v) :: rest, name, env =>
    if k == name then (name, env) :: rest else (k, v) :: insertEnv rest name env

/-- Replace the signature carried by a given key id, or append the new
signature at the end if that key id has not signed yet.
Modelled from the spec: re-signing with the same key replaces, never
duplicates. -/
def replaceOrAppendSig : List (String × String) → String → String → List (String × String)
  | [], kid, sig => [(kid, sig)]
  | (k, s) :: rest, kid, sig =>
    if k == kid then (kid, sig) :: rest else (k, s) :: replaceOrAppendSig rest kid sig

namespace Policy

/-- Modelled from the spec: the reserved name of the trust anchor role. -/
def RootRoleName : String := "root"

/-- Modelled from the spec: the name of the top-level targets role. -/
def TargetsRoleName : String := "targets"

/-- Modelled from the spec: initialize_targets yields a fresh rule file
with an empty delegation list (version 1, no role keys). -/
def InitializeTargetsMetadata : TargetsMetadata :=
  { version := 1, keys := [], delegations := [] }

/-- Modelled from the spec: add_delegation fails with DuplicateRuleName if
the rule name is already present in the document, fails with
InvalidThreshold if the threshold is below 1 or above the number of keys,
and otherwise appends the new delegation at the end, preserving the order
of the existing ones. -/
def AddDelegation (metadata : TargetsMetadata) (ruleName : String)
    (authorizedKeys : List Key) (rulePatterns : List String) (threshold : Int) :
    Except PolicyError TargetsMetadata :=
  if metadata.delegations.any (fun d => d.name == ruleName) then
    Except.error PolicyError.duplicatedRuleName
  else if threshold < 1 ∨ threshold > authorizedKeys.length then
    Except.error PolicyError.invalidThreshold
  else
    Except.ok { metadata with
      delegations := metadata.delegations ++
        [{ name := ruleName, keys := authorizedKeys,
           patterns := rulePatterns, threshold := threshold }] }

/-- Modelled from the spec: update_delegation fails with RuleNotFound if
the rule is absent and otherwise replaces the named delegation in place,
preserving its position. -/
def UpdateDelegation (metadata : TargetsMetadata) (ruleName : String)
    (authorizedKeys : List Key) (rulePatterns : List String) (threshold : Int) :
    Except PolicyError TargetsMetadata :=
  if metadata.delegations.any (fun d => d.name == ruleName) then
    Except.ok { metadata with
      delegations := metadata.delegations.map (fun d =>
        if d.name == ruleName then
          { name := ruleName, keys := authorizedKeys,
            patterns := rulePatterns, threshold := threshold }
        else d) }
  else
    Except.error PolicyError.ruleNotFound

/-- Modelled from the spec: remove_delegation fails with RuleNotFound if
the rule is absent and otherwise removes the named delegation. -/
def RemoveDelegation (metadata : TargetsMetadata) (ruleName : String) :
    Except PolicyError TargetsMetadata :=
  if metadata.delegations.any (fun d => d.name == ruleName) then
    Except.ok { metadata with
      delegations := metadata.delegations.filter (fun d => !(d.name == ruleName)) }
  else
    Except.error PolicyError.ruleNotFound

/-- Modelled from the spec: add_key adds keys to the role's own authorized
signer set without altering the delegations (keys whose id is already
present are not duplicated). -/
def AddKeyToTargets (metadata : TargetsMetadata) (authorizedKeys : List Key) :
    Except PolicyError TargetsMetadata :=
  Except.ok { metadata with
    keys := metadata.keys ++ authorizedKeys.filter (fun k =>
      !(metadata.keys.any (fun k0 => k0.keyID == k.keyID))) }

end Policy

/-- The envelope currently held for a role name: the top-level targets
slot when the name is the top-level targets role name, and otherwise the
delegation-envelope mapping entry. -/
def PolicyState.getEnvelope (state : PolicyState) (roleName : String) : Option Envelope :=
  if roleName == Policy.TargetsRoleName then state.TargetsEnvelope
  else lookupEnv state.DelegationEnvelopes roleName

/-- Modelled from the spec: has_targets_role — whether the state holds a
targets role of the given name. -/
def PolicyState.HasTargetsRole (state : PolicyState) (roleName : String) : Bool :=
  (state.getEnvelope roleName).isSome

/-- Every targets metadata document held by the state: the top-level
targets payload (when present) followed by the delegated role payloads. -/
def PolicyState.allTargetsPayloads (state : PolicyState) : List TargetsMetadata :=
  (match state.TargetsEnvelope with
   | some env => [env.payload]
   | none => []) ++
  state.DelegationEnvelopes.map (fun p => p.2.payload)

/-- Modelled from the spec: has_rule_name searches every role's delegation
list for a name collision, since rule names must be globally unique across
the whole delegation graph. -/
def PolicyState.HasRuleName (state : PolicyState) (name : String) : Bool :=
  state.allTargetsPayloads.any (fun md => md.delegations.any (fun d => d.name == name))

/-- Modelled from the spec: get_targets_metadata fails with
MetadataNotFound if the role name is unknown, otherwise returns the
payload of the role's envelope. -/
def PolicyState.GetTargetsMetadata (state : PolicyState) (roleName : String) :
    Except PolicyError TargetsMetadata :=
  match state.getEnvelope roleName with
  | some env => Except.ok env.payload
  | none => Except.error PolicyError.metadataNotFound

namespace Dsse

/-- Modelled from the spec: create_envelope serializes the metadata
deterministically and starts with an empty signature list.  Serialization
of a well-formed metadata value always succeeds, so the result is always
ok; the fallible return type mirrors the collaborator's interface. -/
def CreateEnvelope (metadata : TargetsMetadata) : Except PolicyError Envelope :=
  Except.ok { payload := metadata, signatures := [] }

/-- Modelled from the spec: sign_envelope computes the signer's key id,
produces a signature over the payload, and appends the pair, replacing an
existing signature from the same key id. -/
def SignEnvelope (env : Envelope) (signer : Signer) : Except PolicyError Envelope :=
  match signer.keyIDResult with
  | Except.error e => Except.error e
  | Except.ok kid =>
    match signer.sign env.payload with
    | Except.error e => Except.error e
    | Except.ok sig =>
      Except.ok { payload := env.payload,
                  signatures := replaceOrAppendSig env.signatures kid sig }

end Dsse

namespace Repository

/-- InitializeTargets, embedded from src/internal/gitinterface/repository.go.
The load of the current policy state from the staging reference is an
external call and enters as the `loadResult` parameter. -/
def InitializeTargets (signer : Signer) (targetsRoleName : String)
    (loadResult : Except PolicyError PolicyState) : Outcome :=
  if targetsRoleName == Policy.RootRoleName then
    Outcome.errored PolicyError.invalidPolicyName
  else
    match signer.keyIDResult with
    | Except.error _ => Outcome.returnedNil
    | Except.ok _keyID =>
      match loadResult with
      | Except.error e => Outcome.errored e
      | Except.ok state =>
        if state.HasTargetsRole targetsRoleName then
          Outcome.errored PolicyError.cannotReinitialize
        else
          let targetsMetadata := Policy.InitializeTargetsMetadata
          match Dsse.CreateEnvelope targetsMetadata with
          | Except.error _ => Outcome.returnedNil
          | Except.ok env0 =>
            match Dsse.SignEnvelope env0 signer with
            | Except.error _ => Outcome.returnedNil
            | Except.ok env =>
              let state' :=
                if targetsRoleName == Policy.TargetsRoleName then
                  { state with TargetsEnvelope := some env }
                else
                  { state with DelegationEnvelopes :=
                      insertEnv state.DelegationEnvelopes targetsRoleName env }
              Outcome.committed state'
                ("Initialize policy " ++ q ++ targetsRoleName ++ q)

/-- AddDelegation, embedded from src/internal/gitinterface/repository.go. -/
def AddDelegation (signer : Signer) (targetsRoleName : String) (ruleName : String)
    (authorizedKeys : List Key) (rulePatterns : List String) (threshold : Int)
    (loadResult : Except PolicyError PolicyState) : Outcome :=
  if ruleName == Policy.RootRoleName then
    Outcome.errored PolicyError.invalidPolicyName
  else
    match signer.keyIDResult with
    | Except.error _ => Outcome.returnedNil
    | Except.ok _keyID =>
      match loadResult with
      | Except.error e => Outcome.errored e
      | Except.ok state =>
        if state.HasRuleName ruleName then
          Outcome.errored PolicyError.duplicatedRuleName
        else if !(state.HasTargetsRole targetsRoleName) then
          Outcome.errored PolicyError.metadataNotFound
        else
          match state.GetTargetsMetadata targetsRoleName with
          | Except.error e => Outcome.errored e
          | Except.ok targetsMetadata =>
            match Policy.AddDelegation targetsMetadata ruleName authorizedKeys
                rulePatterns threshold with
            | Except.error e => Outcome.errored e
            | Except.ok targetsMetadata' =>
              match Dsse.CreateEnvelope targetsMetadata' with
              | Except.error _ => Outcome.returnedNil
              | Except.ok env0 =>
                match Dsse.SignEnvelope env0 signer with
                | Except.error _ => Outcome.returnedNil
                | Except.ok env =>
                  let state' :=
                    if targetsRoleName == Policy.TargetsRoleName then
                      { state with TargetsEnvelope := some env }
                    else
                      { state with DelegationEnvelopes :=
                          insertEnv state.DelegationEnvelopes targetsRoleName env }
                  Outcome.committed state'
                    ("Add rule " ++ q ++ ruleName ++ q ++ " to policy " ++ q ++
                      targetsRoleName ++ q)

/-- UpdateDelegation, embedded from src/internal/gitinterface/repository.go. -/
def UpdateDelegation (signer : Signer) (targetsRoleName : String) (ruleName : String)
    (authorizedKeys : List Key) (rulePatterns : List String) (threshold : Int)
    (loadResult : Except PolicyError PolicyState) : Outcome :=
  if ruleName == Policy.RootRoleName then
    Outcome.errored PolicyError.invalidPolicyName
  else
    match signer.keyIDResult with
    | Except.error _ => Outcome.returnedNil
    | Except.ok _keyID =>
      match loadResult with
      | Except.error e => Outcome.errored e
      | Except.ok state =>
        if !(state.HasTargetsRole targetsRoleName) then
          Outcome.errored PolicyError.metadataNotFound
        else
          match state.GetTargetsMetadata targetsRoleName with
          | Except.error e => Outcome.errored e
          | Except.ok targetsMetadata =>
            match Policy.UpdateDelegation targetsMetadata ruleName authorizedKeys
                rulePatterns threshold with
            | Except.error e => Outcome.errored e
            | Except.ok targetsMetadata' =>
              match Dsse.CreateEnvelope targetsMetadata' with
              | Except.error _ => Outcome.returnedNil
              | Except.ok env0 =>
                match Dsse.SignEnvelope env0 signer with
                | Except.error _ => Outcome.returnedNil
                | Except.ok env =>
                  let state' :=
                    if targetsRoleName == Policy.TargetsRoleName then
                      { state with TargetsEnvelope := some env }
                    else
                      { state with DelegationEnvelopes :=
                          insertEnv state.DelegationEnvelopes targetsRoleName env }
                  Outcome.committed state'
                    ("Update rule " ++ q ++ ruleName ++ q ++ " in policy " ++ q ++
                      targetsRoleName ++ q)

/-- RemoveDelegation, embedded from src/internal/gitinterface/repository.go.
Unlike the three operations above, the source performs no reserved-name
check on the rule name: the function body starts directly with the signer
key id resolution. -/
def RemoveDelegation (signer : Signer) (targetsRoleName : String) (ruleName : String)
    (loadResult : Except PolicyError PolicyState) : Outcome :=
  match signer.keyIDResult with
  | Except.error _ => Outcome.returnedNil
  | Except.ok _keyID =>
    match loadResult with
    | Except.error e => Outcome.errored e
    | Except.ok state =>
      if !(state.HasTargetsRole targetsRoleName) then
        Outcome.errored PolicyError.metadataNotFound
      else
        match state.GetTargetsMetadata targetsRoleName with
        | Except.error e => Outcome.errored e
        | Except.ok targetsMetadata =>
          match Policy.RemoveDelegation targetsMetadata ruleName with
          | Except.error e => Outcome.errored e
          | Except.ok targetsMetadata' =>
            match Dsse.CreateEnvelope targetsMetadata' with
            | Except.error _ => Outcome.returnedNil
            | Except.ok env0 =>
              match Dsse.SignEnvelope env0 signer with
              | Except.error _ => Outcome.returnedNil
              | Except.ok env =>
                let state' :=
                  if targetsRoleName == Policy.TargetsRoleName then
                    { state with TargetsEnvelope := some env }
                  else
                    { state with DelegationEnvelopes :=
                        insertEnv state.DelegationEnvelopes targetsRoleName env }
                Outcome.committed state'
                  ("Remove rule " ++ q ++ ruleName ++ q ++ " from policy " ++ q ++
                    targetsRoleName ++ q)

/-- AddKeyToTargets, embedded from src/internal/gitinterface/repository.go.
In this operation the envelope-creation and signing failure branches do
return the error (unlike the four operations above), while the key id
resolution branch still returns the nil error value. -/
def AddKeyToTargets (signer : Signer) (targetsRoleName : String)
    (authorizedKeys : List Key)
    (loadResult : Except PolicyError PolicyState) : Outcome :=
  match signer.keyIDResult with
  | Except.error _ => Outcome.returnedNil
  | Except.ok _keyID =>
    match loadResult with
    | Except.error e => Outcome.errored e
    | Except.ok state =>
      if !(state.HasTargetsRole targetsRoleName) then
        Outcome.errored PolicyError.metadataNotFound
      else
        let keyIDs := authorizedKeys.foldl
          (fun acc key => acc ++ "\n" ++ key.keyType ++ ":" ++ key.keyID) ""
        match state.GetTargetsMetadata targetsRoleName with
        | Except.error e => Outcome.errored e
        | Except.ok targetsMetadata =>
          match Policy.AddKeyToTargets targetsMetadata authorizedKeys with
          | Except.error e => Outcome.errored e
          | Except.ok targetsMetadata' =>
            match Dsse.CreateEnvelope targetsMetadata' with
            | Except.error e => Outcome.errored e
            | Except.ok env0 =>
              match Dsse.SignEnvelope env0 signer with
              | Except.error e => Outcome.errored e
              | Except.ok env =>
                let state' :=
                  if targetsRoleName == Policy.TargetsRoleName then
                    { state with TargetsEnvelope := some env }
                  else
                    { state with DelegationEnvelopes :=
                        insertEnv state.DelegationEnvelopes targetsRoleName env }
                Outcome.committed state'
                  ("Add keys to policy " ++ q ++ targetsRoleName ++ q ++ keyIDs)

/-- SignTargets, embedded from src/internal/gitinterface/repository.go.
It signs the envelope already held by the state for the named role (no
fresh envelope is created) and replaces that slot with the re-signed
envelope.  The source reads the envelope from the delegation map after
the existence check, so the not-found branch of the final lookup is
unreachable. -/
def SignTargets (signer : Signer) (targetsRoleName : String)
    (loadResult : Except PolicyError PolicyState) : Outcome :=
  match loadResult with
  | Except.error e => Outcome.errored e
  | Except.ok state =>
    if !(state.HasTargetsRole targetsRoleName) then
      Outcome.errored PolicyError.metadataNotFound
    else
      match signer.keyIDResult with
      | Except.error e => Outcome.errored e
      | Except.ok keyID =>
        match state.getEnvelope targetsRoleName with
        | none => Outcome.errored PolicyError.metadataNotFound
        | some env0 =>
          match Dsse.SignEnvelope env0 signer with
          | Except.error e => Outcome.errored e
          | Except.ok env =>
            let state' :=
              if targetsRoleName == Policy.TargetsRoleName then
                { state with TargetsEnvelope := some env }
              else
                { state with DelegationEnvelopes :=
                    insertEnv state.DelegationEnvelopes targetsRoleName env }
            Outcome.committed state'
              ("Add signature from key " ++ q ++ keyID ++ q ++ " to policy " ++ q ++
                targetsRoleName ++ q)

end Repository

/-! Concrete fixtures used by witnesses and counterexamples. -/

/-- A signer whose key id resolves and which always signs successfully. -/
def okSigner : Signer :=
  { keyIDResult := Except.ok "kid-a", sign := fun _ => Except.ok "sig-a" }

/-- A second functioning signer with a distinct key id. -/
def cSigner : Signer :=
  { keyIDResult := Except.ok "kid-c", sign := fun _ => Except.ok "sig-c" }

/-- A signer whose key id resolution fails (and whose signing fails). -/
def failSigner : Signer :=
  { keyIDResult := Except.error (PolicyError.ioError "cannot resolve key id"),
    sign := fun _ => Except.error (PolicyError.ioError "cannot sign") }

/-- A loaded policy state holding only a root envelope: no targets role yet. -/
def emptyState : PolicyState :=
  { RootEnvelope := some "root-envelope",
    TargetsEnvelope := none,
    DelegationEnvelopes := [] }

/-- The envelope produced by initializing the top-level targets role and
signing it with okSigner. -/
def envInit : Envelope :=
  { payload := Policy.InitializeTargetsMetadata, signatures := [("kid-a", "sig-a")] }

/-- A state in which the top-level targets role exists with an empty rule
file. -/
def stTargets : PolicyState :=
  { RootEnvelope := some "root-envelope",
    TargetsEnvelope := some envInit,
    DelegationEnvelopes := [] }

/-- The GPG key delegated to by the protect-main rule. -/
def kC : Key :=
  { keyID := "kid-gpg", keyType := "gpg", scheme := "gpg", public := "gpg-public" }

/-- The top-level rule file after adding the protect-main rule. -/
def mdProtect : TargetsMetadata :=
  { version := 1, keys := [],
    delegations := [{ name := "protect-main", keys := [kC],
                      patterns := ["git:refs/heads/main"], threshold := 1 }] }

/-- The envelope holding mdProtect, signed by okSigner. -/
def envProtect : Envelope :=
  { payload := mdProtect, signatures := [("kid-a", "sig-a")] }

/-- The state after adding the protect-main rule to the top-level role. -/
def stProtect : PolicyState :=
  { RootEnvelope := some "root-envelope",
    TargetsEnvelope := some envProtect,
    DelegationEnvelopes := [] }

/-- The envelope holding mdProtect after cSigner co-signed it. -/
def envSigned : Envelope :=
  { payload := mdProtect, signatures := [("kid-a", "sig-a"), ("kid-c", "sig-c")] }

/-- The state after cSigner co-signed the top-level rule file. -/
def stSigned : PolicyState :=
  { RootEnvelope := some "root-envelope",
    TargetsEnvelope := some envSigned,
    DelegationEnvelopes := [] }

/-- The commit message of the concrete InitializeTargets run. -/
def msgInit : String := "Initialize policy " ++ q ++ "targets" ++ q

/-- The commit message of the concrete AddDelegation run. -/
def msgAdd : String :=
  "Add rule " ++ q ++ "protect-main" ++ q ++ " to policy " ++ q ++ "targets" ++ q

/-- The commit message of the concrete SignTargets run. -/
def msgSign : String :=
  "Add signature from key " ++ q ++ "kid-c" ++ q ++ " to policy " ++ q ++ "targets" ++ q

/-- The envelope-slot replacement every operation performs just before
committing: the top-level targets slot when the role name is the top-level
targets role name, and the delegation-envelope entry of that name
otherwise. -/
def PolicyState.setEnvelope (state : PolicyState) (roleName : String) (env : Envelope) :
    PolicyState :=
  if roleName == Policy.TargetsRoleName then
    { state with TargetsEnvelope := some env }
  else
    { state with DelegationEnvelopes := insertEnv state.DelegationEnvelopes roleName env }

/-- The frame property of one mutation: the root envelope is untouched,
the selected slot now holds an envelope, and the non-selected slot and
every other role's delegation envelope are unchanged. -/
def ReplacesOneSlot (state state' : PolicyState) (roleName : String) : Prop :=
  state'.RootEnvelope = state.RootEnvelope ∧
  (if roleName == Policy.TargetsRoleName then
     state'.TargetsEnvelope.isSome = true ∧
     state'.DelegationEnvelopes = state.DelegationEnvelopes
   else
     state'.TargetsEnvelope = state.TargetsEnvelope ∧
     (lookupEnv state'.DelegationEnvelopes roleName).isSome = true ∧
     ∀ r, r ≠ roleName →
       lookupEnv state'.DelegationEnvelopes r = lookupEnv state.DelegationEnvelopes r)

/-!
Inversion lemmas: whenever an operation produced a committed outcome,
every one of its checks and fallible steps succeeded, and the final state
and commit message are determined.
-/

/-- Inversion of a committed InitializeTargets run. -/
theorem initializeTargets_inv {signer : Signer} {targetsRoleName : String}
    {loadResult : Except PolicyError PolicyState} {state' : PolicyState} {message : String}
    (h : Repository.InitializeTargets signer targetsRoleName loadResult =
      Outcome.committed state' message) :
    ∃ kid sig state,
      targetsRoleName ≠ Policy.RootRoleName ∧
      signer.keyIDResult = Except.ok kid ∧
      loadResult = Except.ok state ∧
      state.HasTargetsRole targetsRoleName = false ∧
      signer.sign Policy.InitializeTargetsMetadata = Except.ok sig ∧
      state' = state.setEnvelope targetsRoleName
        ⟨Policy.InitializeTargetsMetadata, [(kid, sig)]⟩ ∧
      message = "Initialize policy " ++ q ++ targetsRoleName ++ q := by
  unfold Repository.InitializeTargets at h
  split at h
  next => exact absurd h (by simp)
  next hroot =>
  split at h
  next e heq => exact absurd h (by simp)
  next kid heq =>
  split at h
  next e heq2 => exact absurd h (by simp)
  next _ls stateL =>
  split at h
  next hhas => exact absurd h (by simp)
  next hhas =>
  simp only [Dsse.CreateEnvelope, Dsse.SignEnvelope, heq] at h
  split at h
  next e heqS => exact absurd h (by simp)
  next envS heqS =>
  injection h with h1 h2
  split at heqS
  next e heq4 => exact absurd heqS (by simp)
  next sig heq4 =>
  injection heqS with henv
  refine ⟨kid, sig, stateL, by simpa using hroot, heq, rfl, by simpa using hhas,
    heq4, ?_, h2.symm⟩
  rw [← h1, ← henv]
  rfl

/-- Inversion of a committed AddDelegation run. -/
theorem addDelegation_inv {signer : Signer} {targetsRoleName ruleName : String}
    {authorizedKeys : List Key} {rulePatterns : List String} {threshold : Int}
    {loadResult : Except PolicyError PolicyState} {state' : PolicyState} {message : String}
    (h : Repository.AddDelegation signer targetsRoleName ruleName authorizedKeys
      rulePatterns threshold loadResult = Outcome.committed state' message) :
    ∃ kid sig state md md',
      ruleName ≠ Policy.RootRoleName ∧
      signer.keyIDResult = Except.ok kid ∧
      loadResult = Except.ok state ∧
      state.HasRuleName ruleName = false ∧
      state.HasTargetsRole targetsRoleName = true ∧
      state.GetTargetsMetadata targetsRoleName = Except.ok md ∧
      Policy.AddDelegation md ruleName authorizedKeys rulePatterns threshold =
        Except.ok md' ∧
      signer.sign md' = Except.ok sig ∧
      state' = state.setEnvelope targetsRoleName ⟨md', [(kid, sig)]⟩ ∧
      message = "Add rule " ++ q ++ ruleName ++ q ++ " to policy " ++ q ++
        targetsRoleName ++ q := by
  unfold Repository.AddDelegation at h
  split at h
  next => exact absurd h (by simp)
  next hroot =>
  split at h
  next e heq => exact absurd h (by simp)
  next kid heq =>
  split at h
  next e heq2 => exact absurd h (by simp)
  next _ls stateL =>
  split at h
  next hdup => exact absurd h (by simp)
  next hdup =>
  split at h
  next hmiss => exact absurd h (by simp)
  next hmiss =>
  split at h
  next e heqMd => exact absurd h (by simp)
  next md heqMd =>
  split at h
  next e heqAdd => exact absurd h (by simp)
  next md' heqAdd =>
  simp only [Dsse.CreateEnvelope, Dsse.SignEnvelope, heq] at h
  split at h
  next e heqS => exact absurd h (by simp)
  next envS heqS =>
  injection h with h1 h2
  split at heqS
  next e heq4 => exact absurd heqS (by simp)
  next sig heq4 =>
  injection heqS with henv
  refine ⟨kid, sig, stateL, md, md', by simpa using hroot, heq, rfl,
    by simpa using hdup, by simpa using hmiss, heqMd, heqAdd, heq4, ?_, h2.symm⟩
  rw [← h1, ← henv]
  rfl

/-- Inversion of a committed UpdateDelegation run. -/
theorem updateDelegation_inv {signer : Signer} {targetsRoleName ruleName : String}
    {authorizedKeys : List Key} {rulePatterns : List String} {threshold : Int}
    {loadResult : Except PolicyError PolicyState} {state' : PolicyState} {message : String}
    (h : Repository.UpdateDelegation signer targetsRoleName ruleName authorizedKeys
      rulePatterns threshold loadResult = Outcome.committed state' message) :
    ∃ kid sig state md md',
      ruleName ≠ Policy.RootRoleName ∧
      signer.keyIDResult = Except.ok kid ∧
      loadResult = Except.ok state ∧
      state.HasTargetsRole targetsRoleName = true ∧
      state.GetTargetsMetadata targetsRoleName = Except.ok md ∧
      Policy.UpdateDelegation md ruleName authorizedKeys rulePatterns threshold =
        Except.ok md' ∧
      signer.sign md' = Except.ok sig ∧
      state' = state.setEnvelope targetsRoleName ⟨md', [(kid, sig)]⟩ ∧
      message = "Update rule " ++ q ++ ruleName ++ q ++ " in policy " ++ q ++
        targetsRoleName ++ q := by
  unfold Repository.UpdateDelegation at h
  split at h
  next => exact absurd h (by simp)
  next hroot =>
  split at h
  next e heq => exact absurd h (by simp)
  next kid heq =>
  split at h
  next e heq2 => exact absurd h (by simp)
  next _ls stateL =>
  split at h
  next hmiss => exact absurd h (by simp)
  next hmiss =>
  split at h
  next e heqMd => exact absurd h (by simp)
  next md heqMd =>
  split at h
  next e heqUpd => exact absurd h (by simp)
  next md' heqUpd =>
  simp only [Dsse.CreateEnvelope, Dsse.SignEnvelope, heq] at h
  split at h
  next e heqS => exact absurd h (by simp)
  next envS heqS =>
  injection h with h1 h2
  split at heqS
  next e heq4 => exact absurd heqS (by simp)
  next sig heq4 =>
  injection heqS with henv
  refine ⟨kid, sig, stateL, md, md', by simpa using hroot, heq, rfl,
    by simpa using hmiss, heqMd, heqUpd, heq4, ?_, h2.symm⟩
  rw [← h1, ← henv]
  rfl

/-- Inversion of a committed RemoveDelegation run. -/
theorem removeDelegation_inv {signer : Signer} {targetsRoleName ruleName : String}
    {loadResult : Except PolicyError PolicyState} {state' : PolicyState} {message : String}
    (h : Repository.RemoveDelegation signer targetsRoleName ruleName loadResult =
      Outcome.committed state' message) :
    ∃ kid sig state md md',
      signer.keyIDResult = Except.ok kid ∧
      loadResult = Except.ok state ∧
      state.HasTargetsRole targetsRoleName = true ∧
      state.GetTargetsMetadata targetsRoleName = Except.ok md ∧
      Policy.RemoveDelegation md ruleName = Except.ok md' ∧
      signer.sign md' = Except.ok sig ∧
      state' = state.setEnvelope targetsRoleName ⟨md', [(kid, sig)]⟩ ∧
      message = "Remove rule " ++ q ++ ruleName ++ q ++ " from policy " ++ q ++
        targetsRoleName ++ q := by
  unfold Repository.RemoveDelegation at h
  split at h
  next e heq => exact absurd h (by simp)
  next kid heq =>
  split at h
  next e heq2 => exact absurd h (by simp)
  next _ls stateL =>
  split at h
  next hmiss => exact absurd h (by simp)
  next hmiss =>
  split at h
  next e heqMd => exact absurd h (by simp)
  next md heqMd =>
  split at h
  next e heqRem => exact absurd h (by simp)
  next md' heqRem =>
  simp only [Dsse.CreateEnvelope, Dsse.SignEnvelope, heq] at h
  split at h
  next e heqS => exact absurd h (by simp)
  next envS heqS =>
  injection h with h1 h2
  split at heqS
  next e heq4 => exact absurd heqS (by simp)
  next sig heq4 =>
  injection heqS with henv
  refine ⟨kid, sig, stateL, md, md', heq, rfl, by simpa using hmiss, heqMd,
    heqRem, heq4, ?_, h2.symm⟩
  rw [← h1, ← henv]
  rfl

/-- Inversion of a committed AddKeyToTargets run. -/
theorem addKeyToTargets_inv {signer : Signer} {targetsRoleName : String}
    {authorizedKeys : List Key}
    {loadResult : Except PolicyError PolicyState} {state' : PolicyState} {message : String}
    (h : Repository.AddKeyToTargets signer targetsRoleName authorizedKeys loadResult =
      Outcome.committed state' message) :
    ∃ kid sig state md md',
      signer.keyIDResult = Except.ok kid ∧
      loadResult = Except.ok state ∧
      state.HasTargetsRole targetsRoleName = true ∧
      state.GetTargetsMetadata targetsRoleName = Except.ok md ∧
      Policy.AddKeyToTargets md authorizedKeys = Except.ok md' ∧
      signer.sign md' = Except.ok sig ∧
      state' = state.setEnvelope targetsRoleName ⟨md', [(kid, sig)]⟩ ∧
      message = "Add keys to policy " ++ q ++ targetsRoleName ++ q ++
        authorizedKeys.foldl
          (fun acc key => acc ++ "\n" ++ key.keyType ++ ":" ++ key.keyID) "" := by
  unfold Repository.AddKeyToTargets at h
  split at h
  next e heq => exact absurd h (by simp)
  next kid heq =>
  split at h
  next e heq2 => exact absurd h (by simp)
  next _ls stateL =>
  split at h
  next hmiss => exact absurd h (by simp)
  next hmiss =>
  split at h
  next e heqMd => exact absurd h (by simp)
  next md heqMd =>
  split at h
  next e heqK => exact absurd h (by simp)
  next md' heqK =>
  simp only [Dsse.CreateEnvelope, Dsse.SignEnvelope, heq] at h
  split at h
  next e heqS => exact absurd h (by simp)
  next envS heqS =>
  injection h with h1 h2
  split at heqS
  next e heq4 => exact absurd heqS (by simp)
  next sig heq4 =>
  injection heqS with henv
  refine ⟨kid, sig, stateL, md, md', heq, rfl, by simpa using hmiss, heqMd,
    heqK, heq4, ?_, h2.symm⟩
  rw [← h1, ← henv]
  rfl

/-- Inversion of a committed SignTargets run. -/
theorem signTargets_inv {signer : Signer} {targetsRoleName : String}
    {loadResult : Except PolicyError PolicyState} {state' : PolicyState} {message : String}
    (h : Repository.SignTargets signer targetsRoleName loadResult =
      Outcome.committed state' message) :
    ∃ kid sig state env0,
      loadResult = Except.ok state ∧
      state.HasTargetsRole targetsRoleName = true ∧
      signer.keyIDResult = Except.ok kid ∧
      state.getEnvelope targetsRoleName = some env0 ∧
      signer.sign env0.payload = Except.ok sig ∧
      state' = state.setEnvelope targetsRoleName
        ⟨env0.payload, replaceOrAppendSig env0.signatures kid sig⟩ ∧
      message = "Add signature from key " ++ q ++ kid ++ q ++ " to policy " ++ q ++
        targetsRoleName ++ q := by
  unfold Repository.SignTargets at h
  split at h
  next e heq2 => exact absurd h (by simp)
  next _ls stateL =>
  split at h
  next hmiss => exact absurd h (by simp)
  next hmiss =>
  split at h
  next e heq => exact absurd h (by simp)
  next kid heq =>
  split at h
  next heqE => exact absurd h (by simp)
  next env0 heqE =>
  simp only [Dsse.SignEnvelope, heq] at h
  split at h
  next e heqS => exact absurd h (by simp)
  next envS heqS =>
  injection h with h1 h2
  split at heqS
  next e heq4 => exact absurd heqS (by simp)
  next sig heq4 =>
  injection heqS with henv
  refine ⟨kid, sig, stateL, env0, rfl, by simpa using hmiss, heq, heqE,
    heq4, ?_, h2.symm⟩
  rw [← h1, ← henv]
  rfl

/-! Helper lemmas about the association-list map and the slot update. -/

theorem lookupEnv_insertEnv_self (l : List (String × Envelope)) (k : String) (v : Envelope) :
    lookupEnv (insertEnv l k v) k = some v := by
  induction l with
  | nil => simp [insertEnv, lookupEnv]
  | cons p rest ih =>
    obtain ⟨k', v'⟩ := p
    simp only [insertEnv]
    by_cases hk : (k' == k) = true
    · simp [hk, lookupEnv]
    · simp [hk, lookupEnv, ih]

theorem lookupEnv_insertEnv_ne (l : List (String × Envelope)) (k r : String) (v : Envelope)
    (h : r ≠ k) : lookupEnv (insertEnv l k v) r = lookupEnv l r := by
  have hkr : (k == r) = false := by simp [Ne.symm h]
  induction l with
  | nil => simp [insertEnv, lookupEnv, hkr]
  | cons p rest ih =>
    obtain ⟨k', v'⟩ := p
    simp only [insertEnv]
    by_cases hk : (k' == k) = true
    · have hk' : k' = k := by simpa using hk
      subst hk'
      simp [lookupEnv, hkr]
    · rw [if_neg hk]
      simp only [lookupEnv]
      by_cases hr2 : (k' == r) = true
      · simp [hr2]
      · simp [hr2, ih]

theorem mem_insertEnv_self (l : List (String × Envelope)) (k : String) (v : Envelope) :
    (k, v) ∈ insertEnv l k v := by
  induction l with
  | nil => simp [insertEnv]
  | cons p rest ih =>
    obtain ⟨k', v'⟩ := p
    simp only [insertEnv]
    by_cases hk : (k' == k) = true
    · simp [hk]
    · simp only [if_neg hk, List.mem_cons]
      exact Or.inr ih

theorem getEnvelope_setEnvelope (state : PolicyState) (roleName : String) (env : Envelope) :
    (state.setEnvelope roleName env).getEnvelope roleName = some env := by
  unfold PolicyState.setEnvelope PolicyState.getEnvelope
  by_cases hr : (roleName == Policy.TargetsRoleName) = true
  · simp [hr]
  · simp [hr, lookupEnv_insertEnv_self]

theorem replacesOneSlot_setEnvelope (state : PolicyState) (roleName : String)
    (env : Envelope) : ReplacesOneSlot state (state.setEnvelope roleName env) roleName := by
  unfold ReplacesOneSlot PolicyState.setEnvelope
  by_cases hr : (roleName == Policy.TargetsRoleName) = true
  · simp [hr]
  · simp only [if_neg hr]
    exact ⟨trivial, trivial, by simp [lookupEnv_insertEnv_self],
      fun r hne => lookupEnv_insertEnv_ne _ _ _ _ hne⟩

theorem hasRuleName_setEnvelope (state : PolicyState) (roleName : String) (env : Envelope)
    (name : String) (hp : env.payload.delegations.any (fun d => d.name == name) = true) :
    (state.setEnvelope roleName env).HasRuleName name = true := by
  unfold PolicyState.setEnvelope PolicyState.HasRuleName PolicyState.allTargetsPayloads
  by_cases hr : (roleName == Policy.TargetsRoleName) = true
  · simp [hr, hp]
  · simp only [if_neg hr]
    rw [List.any_eq_true]
    refine ⟨env.payload, ?_, hp⟩
    apply List.mem_append_right
    exact List.mem_map.mpr ⟨(roleName, env), mem_insertEnv_self _ _ _, rfl⟩

/-- A delegation added by Policy.AddDelegation is present (by name) in the
resulting document. -/
theorem addDelegation_result_contains_rule {md md' : TargetsMetadata} {ruleName : String}
    {authorizedKeys : List Key} {rulePatterns : List String} {threshold : Int}
    (h : Policy.AddDelegation md ruleName authorizedKeys rulePatterns threshold =
      Except.ok md') :
    md'.delegations.any (fun d => d.name == ruleName) = true := by
  unfold Policy.AddDelegation at h
  split at h
  next => exact absurd h (by simp)
  next =>
  split at h
  next => exact absurd h (by simp)
  next =>
  injection h with h1
  rw [← h1]
  simp

/-- C1 (counterexample): RemoveDelegation performs no reserved-name check.
Called with rule name "root" while the state load fails, it returns the
load error, not ErrInvalidPolicyName, so the reserved-name rejection does
not happen before loading state. -/
theorem removeDelegation_rootName_not_rejected :
    Repository.RemoveDelegation okSigner Policy.TargetsRoleName Policy.RootRoleName
      (Except.error (PolicyError.ioError "load failed")) ≠
      Outcome.errored PolicyError.invalidPolicyName := by decide

/-- C1 (amended): InitializeTargets, AddDelegation and UpdateDelegation
reject the reserved name "root" with ErrInvalidPolicyName before any other
step — for every signer (including ones whose key id resolution fails) and
every load result — while RemoveDelegation performs no such check. -/
theorem rootName_rejected_before_all
    (signer : Signer) (targetsRoleName : String) (authorizedKeys : List Key)
    (rulePatterns : List String) (threshold : Int)
    (loadResult : Except PolicyError PolicyState) :
    Repository.InitializeTargets signer Policy.RootRoleName loadResult =
      Outcome.errored PolicyError.invalidPolicyName ∧
    Repository.AddDelegation signer targetsRoleName Policy.RootRoleName authorizedKeys
      rulePatterns threshold loadResult = Outcome.errored PolicyError.invalidPolicyName ∧
    Repository.UpdateDelegation signer targetsRoleName Policy.RootRoleName authorizedKeys
      rulePatterns threshold loadResult = Outcome.errored PolicyError.invalidPolicyName := by
  refine ⟨?_, ?_, ?_⟩ <;>
    simp [Repository.InitializeTargets, Repository.AddDelegation,
      Repository.UpdateDelegation]

/-- C2 (code bug): when the signer's key id resolution fails, each of
InitializeTargets, AddDelegation, UpdateDelegation, RemoveDelegation and
AddKeyToTargets executes a branch returning the nil error value: the
caller observes success while nothing was committed, instead of receiving
the failure. -/
theorem keyIDFailure_returns_nil :
    Repository.InitializeTargets failSigner Policy.TargetsRoleName
      (Except.ok emptyState) = Outcome.returnedNil ∧
    Repository.AddDelegation failSigner Policy.TargetsRoleName "protect-main" [kC]
      ["git:refs/heads/main"] 1 (Except.ok stTargets) = Outcome.returnedNil ∧
    Repository.UpdateDelegation failSigner Policy.TargetsRoleName "protect-main" [kC]
      ["git:refs/heads/main"] 1 (Except.ok stProtect) = Outcome.returnedNil ∧
    Repository.RemoveDelegation failSigner Policy.TargetsRoleName "protect-main"
      (Except.ok stProtect) = Outcome.returnedNil ∧
    Repository.AddKeyToTargets failSigner Policy.TargetsRoleName [kC]
      (Except.ok stTargets) = Outcome.returnedNil :=
  ⟨rfl, rfl, rfl, rfl, rfl⟩

/-- C7: when the loaded state already has a targets role of the given
name, InitializeTargets fails with ErrCannotReinitialize, and in
particular never invokes state.Commit. -/
theorem initializeTargets_rejects_existing_role
    (signer : Signer) (kid targetsRoleName : String) (state : PolicyState)
    (hname : targetsRoleName ≠ Policy.RootRoleName)
    (hkid : signer.keyIDResult = Except.ok kid)
    (hhas : state.HasTargetsRole targetsRoleName = true) :
    Repository.InitializeTargets signer targetsRoleName (Except.ok state) =
      Outcome.errored PolicyError.cannotReinitialize ∧
    ∀ state' message,
      Repository.InitializeTargets signer targetsRoleName (Except.ok state) ≠
        Outcome.committed state' message := by
  have h1 : Repository.InitializeTargets signer targetsRoleName (Except.ok state) =
      Outcome.errored PolicyError.cannotReinitialize := by
    simp [Repository.InitializeTargets, hname, hkid, hhas]
  exact ⟨h1, fun state' message hc => by rw [h1] at hc; exact Outcome.noConfusion hc⟩

/-- C7 witness: a concrete state holding the top-level targets role, on
which re-initialization is rejected. -/
theorem initializeTargets_rejects_existing_role_witness :
    ("targets" : String) ≠ Policy.RootRoleName ∧
    okSigner.keyIDResult = Except.ok "kid-a" ∧
    stTargets.HasTargetsRole "targets" = true ∧
    Repository.InitializeTargets okSigner "targets" (Except.ok stTargets) =
      Outcome.errored PolicyError.cannotReinitialize :=
  ⟨by decide, rfl, rfl,
    (initializeTargets_rejects_existing_role okSigner "kid-a" "targets" stTargets
      (by decide) rfl rfl).1⟩

/-- C6: for AddDelegation, UpdateDelegation, RemoveDelegation,
AddKeyToTargets and SignTargets, when the loaded state has no targets role
of the given name (and the checks preceding the existence check pass), the
operation fails with ErrMetadataNotFound. -/
theorem missing_role_fails_metadataNotFound
    (signer : Signer) (kid targetsRoleName ruleName : String)
    (authorizedKeys : List Key) (rulePatterns : List String) (threshold : Int)
    (state : PolicyState)
    (hkid : signer.keyIDResult = Except.ok kid)
    (hmiss : state.HasTargetsRole targetsRoleName = false) :
    (ruleName ≠ Policy.RootRoleName → state.HasRuleName ruleName = false →
      Repository.AddDelegation signer targetsRoleName ruleName authorizedKeys rulePatterns
        threshold (Except.ok state) = Outcome.errored PolicyError.metadataNotFound) ∧
    (ruleName ≠ Policy.RootRoleName →
      Repository.UpdateDelegation signer targetsRoleName ruleName authorizedKeys rulePatterns
        threshold (Except.ok state) = Outcome.errored PolicyError.metadataNotFound) ∧
    Repository.RemoveDelegation signer targetsRoleName ruleName (Except.ok state) =
      Outcome.errored PolicyError.metadataNotFound ∧
    Repository.AddKeyToTargets signer targetsRoleName authorizedKeys (Except.ok state) =
      Outcome.errored PolicyError.metadataNotFound ∧
    ∀ anySigner : Signer,
      Repository.SignTargets anySigner targetsRoleName (Except.ok state) =
        Outcome.errored PolicyError.metadataNotFound := by
  refine ⟨?_, ?_, ?_, ?_, ?_⟩
  · intro h1 h2; simp [Repository.AddDelegation, hkid, hmiss, h1, h2]
  · intro h1; simp [Repository.UpdateDelegation, hkid, hmiss, h1]
  · simp [Repository.RemoveDelegation, hkid, hmiss]
  · simp [Repository.AddKeyToTargets, hkid, hmiss]
  · intro anySigner; simp [Repository.SignTargets, hmiss]

/-- C6 witness: on a state without the role "other", RemoveDelegation
fails with ErrMetadataNotFound. -/
theorem missing_role_fails_metadataNotFound_witness :
    okSigner.keyIDResult = Except.ok "kid-a" ∧
    stTargets.HasTargetsRole "other" = false ∧
    Repository.RemoveDelegation okSigner "other" "protect-main" (Except.ok stTargets) =
      Outcome.errored PolicyError.metadataNotFound :=
  ⟨rfl, rfl,
    (missing_role_fails_metadataNotFound okSigner "kid-a" "other" "protect-main"
      [] [] 1 stTargets rfl rfl).2.2.1⟩

/-- C10: in AddDelegation the global duplicate-rule-name check precedes
the target-role-existence check: with a rule name already present in the
delegation graph and a target role that does not exist, the result is
ErrDuplicatedRuleName, not ErrMetadataNotFound. -/
theorem duplicate_check_precedes_existence_check
    (signer : Signer) (kid targetsRoleName ruleName : String)
    (authorizedKeys : List Key) (rulePatterns : List String) (threshold : Int)
    (state : PolicyState)
    (hname : ruleName ≠ Policy.RootRoleName)
    (hkid : signer.keyIDResult = Except.ok kid)
    (hdup : state.HasRuleName ruleName = true)
    (hmiss : state.HasTargetsRole targetsRoleName = false) :
    Repository.AddDelegation signer targetsRoleName ruleName authorizedKeys rulePatterns
      threshold (Except.ok state) = Outcome.errored PolicyError.duplicatedRuleName ∧
    Repository.AddDelegation signer targetsRoleName ruleName authorizedKeys rulePatterns
      threshold (Except.ok state) ≠ Outcome.errored PolicyError.metadataNotFound := by
  have h1 : Repository.AddDelegation signer targetsRoleName ruleName authorizedKeys
      rulePatterns threshold (Except.ok state) =
      Outcome.errored PolicyError.duplicatedRuleName := by
    simp [Repository.AddDelegation, hname, hkid, hdup]
  exact ⟨h1, by rw [h1]; simp⟩

/-- C10 witness: the state holding the rule protect-main but no role named
"other": adding protect-main to "other" reports the duplicate, not the
missing role. -/
theorem duplicate_check_precedes_existence_check_witness :
    ("protect-main" : String) ≠ Policy.RootRoleName ∧
    okSigner.keyIDResult = Except.ok "kid-a" ∧
    stProtect.HasRuleName "protect-main" = true ∧
    stProtect.HasTargetsRole "other" = false ∧
    Repository.AddDelegation okSigner "other" "protect-main" [kC] [] 1
      (Except.ok stProtect) = Outcome.errored PolicyError.duplicatedRuleName :=
  ⟨by decide, rfl, rfl, rfl,
    (duplicate_check_precedes_existence_check okSigner "kid-a" "other" "protect-main"
      [kC] [] 1 stProtect (by decide) rfl rfl rfl).1⟩

/-- C3: state.Commit is invoked only when every prior step of the
operation succeeded: for each of the six operations, a committed outcome
implies that key id resolution, state loading, every structural
precondition check, the metadata transformation and the envelope signing
step all succeeded.  Every failure path returns (with an error or with the
nil error value) before the commit step, so no commit is created. -/
theorem commit_implies_all_steps_succeeded :
    (∀ (signer : Signer) (targetsRoleName : String)
        (loadResult : Except PolicyError PolicyState)
        (state' : PolicyState) (message : String),
      Repository.InitializeTargets signer targetsRoleName loadResult =
        Outcome.committed state' message →
      (∃ kid, signer.keyIDResult = Except.ok kid) ∧
      (∃ sig, signer.sign Policy.InitializeTargetsMetadata = Except.ok sig) ∧
      (∃ state, loadResult = Except.ok state ∧
        state.HasTargetsRole targetsRoleName = false)) ∧
    (∀ (signer : Signer) (targetsRoleName ruleName : String)
        (authorizedKeys : List Key) (rulePatterns : List String) (threshold : Int)
        (loadResult : Except PolicyError PolicyState)
        (state' : PolicyState) (message : String),
      Repository.AddDelegation signer targetsRoleName ruleName authorizedKeys
        rulePatterns threshold loadResult = Outcome.committed state' message →
      (∃ kid, signer.keyIDResult = Except.ok kid) ∧
      (∃ state, loadResult = Except.ok state ∧
        state.HasRuleName ruleName = false ∧
        state.HasTargetsRole targetsRoleName = true ∧
        ∃ md md' sig, state.GetTargetsMetadata targetsRoleName = Except.ok md ∧
          Policy.AddDelegation md ruleName authorizedKeys rulePatterns threshold =
            Except.ok md' ∧
          signer.sign md' = Except.ok sig)) ∧
    (∀ (signer : Signer) (targetsRoleName ruleName : String)
        (authorizedKeys : List Key) (rulePatterns : List String) (threshold : Int)
        (loadResult : Except PolicyError PolicyState)
        (state' : PolicyState) (message : String),
      Repository.UpdateDelegation signer targetsRoleName ruleName authorizedKeys
        rulePatterns threshold loadResult = Outcome.committed state' message →
      (∃ kid, signer.keyIDResult = Except.ok kid) ∧
      (∃ state, loadResult = Except.ok state ∧
        state.HasTargetsRole targetsRoleName = true ∧
        ∃ md md' sig, state.GetTargetsMetadata targetsRoleName = Except.ok md ∧
          Policy.UpdateDelegation md ruleName authorizedKeys rulePatterns threshold =
            Except.ok md' ∧
          signer.sign md' = Except.ok sig)) ∧
    (∀ (signer : Signer) (targetsRoleName ruleName : String)
        (loadResult : Except PolicyError PolicyState)
        (state' : PolicyState) (message : String),
      Repository.RemoveDelegation signer targetsRoleName ruleName loadResult =
        Outcome.committed state' message →
      (∃ kid, signer.keyIDResult = Except.ok kid) ∧
      (∃ state, loadResult = Except.ok state ∧
        state.HasTargetsRole targetsRoleName = true ∧
        ∃ md md' sig, state.GetTargetsMetadata targetsRoleName = Except.ok md ∧
          Policy.RemoveDelegation md ruleName = Except.ok md' ∧
          signer.sign md' = Except.ok sig)) ∧
    (∀ (signer : Signer) (targetsRoleName : String) (authorizedKeys : List Key)
        (loadResult : Except PolicyError PolicyState)
        (state' : PolicyState) (message : String),
      Repository.AddKeyToTargets signer targetsRoleName authorizedKeys loadResult =
        Outcome.committed state' message →
      (∃ kid, signer.keyIDResult = Except.ok kid) ∧
      (∃ state, loadResult = Except.ok state ∧
        state.HasTargetsRole targetsRoleName = true ∧
        ∃ md md' sig, state.GetTargetsMetadata targetsRoleName = Except.ok md ∧
          Policy.AddKeyToTargets md authorizedKeys = Except.ok md' ∧
          signer.sign md' = Except.ok sig)) ∧
    (∀ (signer : Signer) (targetsRoleName : String)
        (loadResult : Except PolicyError PolicyState)
        (state' : PolicyState) (message : String),
      Repository.SignTargets signer targetsRoleName loadResult =
        Outcome.committed state' message →
      (∃ kid, signer.keyIDResult = Except.ok kid) ∧
      (∃ state, loadResult = Except.ok state ∧
        state.HasTargetsRole targetsRoleName = true ∧
        ∃ env0 sig, state.getEnvelope targetsRoleName = some env0 ∧
          signer.sign env0.payload = Except.ok sig)) := by
  refine ⟨?_, ?_, ?_, ?_, ?_, ?_⟩
  · intro signer role load st' msg h
    obtain ⟨kid, sig, st, _, hkid, hload, hhas, hsig, _, _⟩ := initializeTargets_inv h
    exact ⟨⟨kid, hkid⟩, ⟨sig, hsig⟩, ⟨st, hload, hhas⟩⟩
  · intro signer role rule ks ps t load st' msg h
    obtain ⟨kid, sig, st, md, md', _, hkid, hload, hdup, hhas, hmd, hAdd, hsig, _, _⟩ :=
      addDelegation_inv h
    exact ⟨⟨kid, hkid⟩, ⟨st, hload, hdup, hhas, md, md', sig, hmd, hAdd, hsig⟩⟩
  · intro signer role rule ks ps t load st' msg h
    obtain ⟨kid, sig, st, md, md', _, hkid, hload, hhas, hmd, hUpd, hsig, _, _⟩ :=
      updateDelegation_inv h
    exact ⟨⟨kid, hkid⟩, ⟨st, hload, hhas, md, md', sig, hmd, hUpd, hsig⟩⟩
  · intro signer role rule load st' msg h
    obtain ⟨kid, sig, st, md, md', hkid, hload, hhas, hmd, hRem, hsig, _, _⟩ :=
      removeDelegation_inv h
    exact ⟨⟨kid, hkid⟩, ⟨st, hload, hhas, md, md', sig, hmd, hRem, hsig⟩⟩
  · intro signer role ks load st' msg h
    obtain ⟨kid, sig, st, md, md', hkid, hload, hhas, hmd, hK, hsig, _, _⟩ :=
      addKeyToTargets_inv h
    exact ⟨⟨kid, hkid⟩, ⟨st, hload, hhas, md, md', sig, hmd, hK, hsig⟩⟩
  · intro signer role load st' msg h
    obtain ⟨kid, sig, st, env0, hload, hhas, hkid, hget, hsig, _, _⟩ := signTargets_inv h
    exact ⟨⟨kid, hkid⟩, ⟨st, hload, hhas, env0, sig, hget, hsig⟩⟩

/-- C3 witness: a concrete committed InitializeTargets run, at which the
theorem yields that every step succeeded. -/
theorem commit_implies_all_steps_succeeded_witness :
    (∃ kid, okSigner.keyIDResult = Except.ok kid) ∧
    (∃ sig, okSigner.sign Policy.InitializeTargetsMetadata = Except.ok sig) ∧
    (∃ state, (Except.ok emptyState : Except PolicyError PolicyState) = Except.ok state ∧
      state.HasTargetsRole "targets" = false) :=
  commit_implies_all_steps_succeeded.1 okSigner "targets" (Except.ok emptyState)
    stTargets msgInit rfl

/-- C8: each operation commits with its fixed message template as a
function of its string arguments. -/
theorem commit_messages_follow_templates :
    (∀ (signer : Signer) (targetsRoleName : String)
        (loadResult : Except PolicyError PolicyState)
        (state' : PolicyState) (message : String),
      Repository.InitializeTargets signer targetsRoleName loadResult =
        Outcome.committed state' message →
      message = "Initialize policy " ++ q ++ targetsRoleName ++ q) ∧
    (∀ (signer : Signer) (targetsRoleName ruleName : String)
        (authorizedKeys : List Key) (rulePatterns : List String) (threshold : Int)
        (loadResult : Except PolicyError PolicyState)
        (state' : PolicyState) (message : String),
      Repository.AddDelegation signer targetsRoleName ruleName authorizedKeys
        rulePatterns threshold loadResult = Outcome.committed state' message →
      message = "Add rule " ++ q ++ ruleName ++ q ++ " to policy " ++ q ++
        targetsRoleName ++ q) ∧
    (∀ (signer : Signer) (targetsRoleName ruleName : String)
        (authorizedKeys : List Key) (rulePatterns : List String) (threshold : Int)
        (loadResult : Except PolicyError PolicyState)
        (state' : PolicyState) (message : String),
      Repository.UpdateDelegation signer targetsRoleName ruleName authorizedKeys
        rulePatterns threshold loadResult = Outcome.committed state' message →
      message = "Update rule " ++ q ++ ruleName ++ q ++ " in policy " ++ q ++
        targetsRoleName ++ q) ∧
    (∀ (signer : Signer) (targetsRoleName ruleName : String)
        (loadResult : Except PolicyError PolicyState)
        (state' : PolicyState) (message : String),
      Repository.RemoveDelegation signer targetsRoleName ruleName loadResult =
        Outcome.committed state' message →
      message = "Remove rule " ++ q ++ ruleName ++ q ++ " from policy " ++ q ++
        targetsRoleName ++ q) := by
  refine ⟨?_, ?_, ?_, ?_⟩
  · intro signer role load st' msg h
    obtain ⟨_, _, _, _, _, _, _, _, _, hmsg⟩ := initializeTargets_inv h
    exact hmsg
  · intro signer role rule ks ps t load st' msg h
    obtain ⟨_, _, _, _, _, _, _, _, _, _, _, _, _, _, hmsg⟩ := addDelegation_inv h
    exact hmsg
  · intro signer role rule ks ps t load st' msg h
    obtain ⟨_, _, _, _, _, _, _, _, _, _, _, _, _, hmsg⟩ := updateDelegation_inv h
    exact hmsg
  · intro signer role rule load st' msg h
    obtain ⟨_, _, _, _, _, _, _, _, _, _, _, _, hmsg⟩ := removeDelegation_inv h
    exact hmsg

/-- C8 witness: a concrete committed AddDelegation run and its message. -/
theorem commit_messages_follow_templates_witness :
    Repository.AddDelegation okSigner "targets" "protect-main" [kC]
      ["git:refs/heads/main"] 1 (Except.ok stTargets) =
      Outcome.committed stProtect msgAdd ∧
    msgAdd = "Add rule " ++ q ++ "protect-main" ++ q ++ " to policy " ++ q ++
      "targets" ++ q :=
  ⟨rfl, commit_messages_follow_templates.2.1 okSigner "targets" "protect-main" [kC]
    ["git:refs/heads/main"] 1 (Except.ok stTargets) stProtect msgAdd rfl⟩

/-- C9: every mutation operation replaces exactly one envelope slot of the
in-memory policy state before committing — the top-level targets slot when
the role name is the top-level targets role name, and the delegation
envelope of that name otherwise — leaving the root envelope, the
non-selected slot and every other role's delegation envelope unchanged. -/
theorem mutation_replaces_exactly_one_slot :
    (∀ (signer : Signer) (targetsRoleName : String) (state state' : PolicyState)
        (message : String),
      Repository.InitializeTargets signer targetsRoleName (Except.ok state) =
        Outcome.committed state' message →
      ReplacesOneSlot state state' targetsRoleName) ∧
    (∀ (signer : Signer) (targetsRoleName ruleName : String)
        (authorizedKeys : List Key) (rulePatterns : List String) (threshold : Int)
        (state state' : PolicyState) (message : String),
      Repository.AddDelegation signer targetsRoleName ruleName authorizedKeys
        rulePatterns threshold (Except.ok state) = Outcome.committed state' message →
      ReplacesOneSlot state state' targetsRoleName) ∧
    (∀ (signer : Signer) (targetsRoleName ruleName : String)
        (authorizedKeys : List Key) (rulePatterns : List String) (threshold : Int)
        (state state' : PolicyState) (message : String),
      Repository.UpdateDelegation signer targetsRoleName ruleName authorizedKeys
        rulePatterns threshold (Except.ok state) = Outcome.committed state' message →
      ReplacesOneSlot state state' targetsRoleName) ∧
    (∀ (signer : Signer) (targetsRoleName ruleName : String)
        (state state' : PolicyState) (message : String),
      Repository.RemoveDelegation signer targetsRoleName ruleName (Except.ok state) =
        Outcome.committed state' message →
      ReplacesOneSlot state state' targetsRoleName) ∧
    (∀ (signer : Signer) (targetsRoleName : String) (authorizedKeys : List Key)
        (state state' : PolicyState) (message : String),
      Repository.AddKeyToTargets signer targetsRoleName authorizedKeys (Except.ok state) =
        Outcome.committed state' message →
      ReplacesOneSlot state state' targetsRoleName) ∧
    (∀ (signer : Signer) (targetsRoleName : String) (state state' : PolicyState)
        (message : String),
      Repository.SignTargets signer targetsRoleName (Except.ok state) =
        Outcome.committed state' message →
      ReplacesOneSlot state state' targetsRoleName) := by
  refine ⟨?_, ?_, ?_, ?_, ?_, ?_⟩
  · intro signer role st st' msg h
    obtain ⟨kid, sig, st0, _, _, hload, _, _, hst', _⟩ := initializeTargets_inv h
    injection hload with he
    subst he
    rw [hst']
    exact replacesOneSlot_setEnvelope _ _ _
  · intro signer role rule ks ps t st st' msg h
    obtain ⟨kid, sig, st0, md, md', _, _, hload, _, _, _, _, _, hst', _⟩ :=
      addDelegation_inv h
    injection hload with he
    subst he
    rw [hst']
    exact replacesOneSlot_setEnvelope _ _ _
  · intro signer role rule ks ps t st st' msg h
    obtain ⟨kid, sig, st0, md, md', _, _, hload, _, _, _, _, hst', _⟩ :=
      updateDelegation_inv h
    injection hload with he
    subst he
    rw [hst']
    exact replacesOneSlot_setEnvelope _ _ _
  · intro signer role rule st st' msg h
    obtain ⟨kid, sig, st0, md, md', _, hload, _, _, _, _, hst', _⟩ :=
      removeDelegation_inv h
    injection hload with he
    subst he
    rw [hst']
    exact replacesOneSlot_setEnvelope _ _ _
  · intro signer role ks st st' msg h
    obtain ⟨kid, sig, st0, md, md', _, hload, _, _, _, _, hst', _⟩ :=
      addKeyToTargets_inv h
    injection hload with he
    subst he
    rw [hst']
    exact replacesOneSlot_setEnvelope _ _ _
  · intro signer role st st' msg h
    obtain ⟨kid, sig, st0, env0, hload, _, _, _, _, hst', _⟩ := signTargets_inv h
    injection hload with he
    subst he
    rw [hst']
    exact replacesOneSlot_setEnvelope _ _ _

/-- C9 witness: the concrete AddDelegation run replaces only the top-level
targets slot. -/
theorem mutation_replaces_exactly_one_slot_witness :
    Repository.AddDelegation okSigner "targets" "protect-main" [kC]
      ["git:refs/heads/main"] 1 (Except.ok stTargets) =
      Outcome.committed stProtect msgAdd ∧
    ReplacesOneSlot stTargets stProtect "targets" :=
  ⟨rfl, mutation_replaces_exactly_one_slot.2.1 okSigner "targets" "protect-main" [kC]
    ["git:refs/heads/main"] 1 stTargets stProtect msgAdd rfl⟩

/-- C5: SignTargets leaves the metadata payload of the named role's
envelope unchanged — it signs the envelope already stored in the loaded
state, so the version is unchanged and the signature list is the old one
with the signer's signature appended (or replaced for a re-signing key). -/
theorem signTargets_preserves_payload
    (signer : Signer) (targetsRoleName : String) (st st' : PolicyState) (message : String)
    (h : Repository.SignTargets signer targetsRoleName (Except.ok st) =
      Outcome.committed st' message) :
    ∃ env0 env1 kid sig,
      st.getEnvelope targetsRoleName = some env0 ∧
      st'.getEnvelope targetsRoleName = some env1 ∧
      env1.payload = env0.payload ∧
      env1.payload.version = env0.payload.version ∧
      env1.signatures = replaceOrAppendSig env0.signatures kid sig ∧
      signer.keyIDResult = Except.ok kid ∧
      signer.sign env0.payload = Except.ok sig := by
  obtain ⟨kid, sig, st0, env0, hload, hhas, hkid, hget, hsig, hst', hmsg⟩ :=
    signTargets_inv h
  injection hload with he
  subst he
  refine ⟨env0, ⟨env0.payload, replaceOrAppendSig env0.signatures kid sig⟩, kid, sig,
    hget, ?_, rfl, rfl, rfl, hkid, hsig⟩
  rw [hst']
  exact getEnvelope_setEnvelope _ _ _

/-- C5 witness: cSigner co-signs the top-level rule file; the payload and
its version are unchanged and the signature is appended. -/
theorem signTargets_preserves_payload_witness :
    Repository.SignTargets cSigner "targets" (Except.ok stProtect) =
      Outcome.committed stSigned msgSign ∧
    ∃ env0 env1 kid sig,
      stProtect.getEnvelope "targets" = some env0 ∧
      stSigned.getEnvelope "targets" = some env1 ∧
      env1.payload = env0.payload ∧
      env1.payload.version = env0.payload.version ∧
      env1.signatures = replaceOrAppendSig env0.signatures kid sig ∧
      cSigner.keyIDResult = Except.ok kid ∧
      cSigner.sign env0.payload = Except.ok sig :=
  ⟨rfl, signTargets_preserves_payload cSigner "targets" stProtect stSigned msgSign rfl⟩

/-- C4: rule names are globally unique across the delegation graph: with a
functioning signer and a non-reserved rule name, AddDelegation fails with
ErrDuplicatedRuleName whenever the loaded state already holds a rule of
that name in any role, whichever target role is named; consequently, after
a successful AddDelegation of a rule name, a second AddDelegation of the
same rule name — on the same or a different role — fails with
ErrDuplicatedRuleName. -/
theorem addDelegation_rejects_duplicate_rule_globally
    (signer signer2 : Signer) (kid kid2 targetsRoleName targetsRoleName2 ruleName : String)
    (authorizedKeys authorizedKeys2 : List Key) (rulePatterns rulePatterns2 : List String)
    (threshold threshold2 : Int) (state state' : PolicyState) (message : String)
    (hname : ruleName ≠ Policy.RootRoleName)
    (hkid : signer.keyIDResult = Except.ok kid)
    (hkid2 : signer2.keyIDResult = Except.ok kid2) :
    (state.HasRuleName ruleName = true →
      Repository.AddDelegation signer targetsRoleName ruleName authorizedKeys rulePatterns
        threshold (Except.ok state) = Outcome.errored PolicyError.duplicatedRuleName) ∧
    (Repository.AddDelegation signer targetsRoleName ruleName authorizedKeys rulePatterns
        threshold (Except.ok state) = Outcome.committed state' message →
      Repository.AddDelegation signer2 targetsRoleName2 ruleName authorizedKeys2
        rulePatterns2 threshold2 (Except.ok state') =
        Outcome.errored PolicyError.duplicatedRuleName) := by
  have main : ∀ (s : Signer) (k role rule : String) (ks : List Key) (ps : List String)
      (th : Int) (st0 : PolicyState), rule ≠ Policy.RootRoleName →
      s.keyIDResult = Except.ok k → st0.HasRuleName rule = true →
      Repository.AddDelegation s role rule ks ps th (Except.ok st0) =
        Outcome.errored PolicyError.duplicatedRuleName := by
    intro s k role rule ks ps th st0 h1 h2 h3
    simp [Repository.AddDelegation, h1, h2, h3]
  refine ⟨main signer kid targetsRoleName ruleName authorizedKeys rulePatterns threshold
    state hname hkid, ?_⟩
  intro h
  obtain ⟨kidx, sigx, st0, md, md', _, _, hload, _, _, _, hAdd, _, hst', _⟩ :=
    addDelegation_inv h
  injection hload with he
  subst he
  apply main signer2 kid2 targetsRoleName2 ruleName authorizedKeys2 rulePatterns2
    threshold2 state' hname hkid2
  rw [hst']
  exact hasRuleName_setEnvelope _ _ _ _ (addDelegation_result_contains_rule hAdd)

/-- C4 witness: adding protect-main to the fresh top-level role succeeds;
re-adding protect-main on a different role on the resulting state fails
with ErrDuplicatedRuleName. -/
theorem addDelegation_rejects_duplicate_rule_globally_witness :
    Repository.AddDelegation okSigner "targets" "protect-main" [kC]
      ["git:refs/heads/main"] 1 (Except.ok stTargets) =
      Outcome.committed stProtect msgAdd ∧
    Repository.AddDelegation cSigner "other" "protect-main" [kC] [] 1
      (Except.ok stProtect) = Outcome.errored PolicyError.duplicatedRuleName :=
  ⟨rfl, (addDelegation_rejects_duplicate_rule_globally okSigner cSigner "kid-a" "kid-c"
    "targets" "other" "protect-main" [kC] [kC] ["git:refs/heads/main"] [] 1 1 stTargets
    stProtect msgAdd (by decide) rfl rfl).2 rfl⟩
